import Mathlib

/-!
Verification of the WebApp controller (`internal/controller`, file embedded
from `src/unnamed/part_001`) of platform-operator-blueprint.

The controller is embedded shallowly: the Kubernetes API server is a `Store`
holding at most one WebApp, one Deployment and one Service (the controller
only ever touches the objects named after the reconciled WebApp, so a
single-key store is faithful for one reconcile invocation).  Store I/O
failures are injected through a `Faults` record with one flag per call site;
`noFaults` is the fault-free store.  Every store write is recorded in an
event trace so ordering claims can be stated.  Wall-clock data
(`LastTransitionTime`) is outside the embedding; all other `metav1.Condition`
fields are kept.
-/

namespace PlatformOperator

/-- Embedding of `metav1.ConditionStatus`: True / False / Unknown. -/
inductive CondStatus
  | ctrue
  | cfalse
  | cunknown
deriving DecidableEq

/-- Embedding of `metav1.Condition` without `LastTransitionTime` (wall-clock, outside the
embedding).  `condType` is the Go `Type` field. -/
structure Condition where
  condType : String
  status : CondStatus
  reason : String
  message : String
  observedGeneration : Nat
deriving DecidableEq

/-- Embedding of `meta.SetStatusCondition` (apimachinery): update the first condition with
the same type in place (preserving list order), or append if absent.  The Go
function overwrites Status, Reason, Message and ObservedGeneration of the
existing entry; the timestamp handling it also does is outside the embedding. -/
def setStatusCondition (conds : List Condition) (newC : Condition) : List Condition :=
  match conds with
  | [] => [newC]
  | c :: rest =>
    if c.condType = newC.condType then
      { c with status := newC.status, reason := newC.reason, message := newC.message, observedGeneration := newC.observedGeneration } :: rest
    else
      c :: setStatusCondition rest newC

/-- Embedding of `meta.FindStatusCondition`: the first condition with the given type. -/
def findCondition (conds : List Condition) (k : String) : Option Condition :=
  match conds with
  | [] => none
  | c :: rest => if c.condType = k then some c else findCondition rest k

/-- Embedding of `WebAppSpec` (api/v1alpha1/webapp_types.go): image, optional replicas, port. -/
structure WebAppSpec where
  image : String
  replicas : Option Int
  port : Int
deriving DecidableEq

/-- Embedding of `WebAppStatus`: available replicas plus conditions. -/
structure WebAppStatus where
  availableReplicas : Int
  conditions : List Condition
deriving DecidableEq

/-- The WebApp object: identity, object meta the controller reads
(generation, deletion timestamp, finalizers), spec and status. -/
structure WebApp where
  name : String
  ns : String
  generation : Nat
  deletionTimestamp : Option Nat
  finalizers : List String
  spec : WebAppSpec
  status : WebAppStatus
deriving DecidableEq

/-- Embedding of `corev1.ContainerPort`: container port and protocol. -/
structure ContainerPort where
  containerPort : Int
  protocol : String
deriving DecidableEq

/-- A container of the Deployment pod template.  `env` and `resources` stand
for the fields of the container that the engine is not authoritative over
(set by external writers, never touched by the sync). -/
structure Container where
  name : String
  image : String
  ports : List ContainerPort
  env : List (String × String)
  resources : String
deriving DecidableEq

/-- Owner reference set by `controllerutil.SetControllerReference`. -/
structure OwnerRef where
  ownerName : String
  ownerNs : String
deriving DecidableEq

/-- Deployment spec.  `strategy` stands for the spec fields outside the
engine's authoritative subset (replicas, container image, container ports). -/
structure DeploymentSpec where
  replicas : Int
  selector : List (String × String)
  templateLabels : List (String × String)
  containers : List Container
  strategy : String
deriving DecidableEq

/-- Deployment status: the field the controller reads. -/
structure DeploymentStatus where
  availableReplicas : Int
deriving DecidableEq

/-- The Deployment child resource.  `extraMeta` stands for object metadata
owned by external writers. -/
structure Deployment where
  name : String
  ns : String
  extraMeta : List (String × String)
  ownerRef : Option OwnerRef
  spec : DeploymentSpec
  status : DeploymentStatus
deriving DecidableEq

/-- Embedding of `corev1.ServicePort`. -/
structure ServicePort where
  port : Int
  targetPort : Int
  protocol : String
deriving DecidableEq

/-- Service spec.  `svcType` and `clusterIP` are outside the engine's
authoritative subset (port mapping and selector). -/
structure ServiceSpec where
  selector : List (String × String)
  ports : List ServicePort
  svcType : String
  clusterIP : String
deriving DecidableEq

/-- The Service child resource. -/
structure Service where
  name : String
  ns : String
  extraMeta : List (String × String)
  ownerRef : Option OwnerRef
  spec : ServiceSpec
deriving DecidableEq

/-- The slice of the API server the controller touches for one WebApp key. -/
structure Store where
  webapp : Option WebApp
  deployment : Option Deployment
  service : Option Service
deriving DecidableEq

/-- Injected transient store failures, one flag per store call site of
`Reconcile` and its helpers.  In particular each of the six
`Status().Update` calls behind `setCondition` (the Progressing marker, the
two Degraded reports, and the three projection writes) fails independently
of the others, as do the two finalizer `Update` calls. -/
structure Faults where
  getWebAppErr : Bool
  removeFinalizerErr : Bool
  addFinalizerErr : Bool
  progressingTrueErr : Bool
  degradedDepErr : Bool
  degradedSvcErr : Bool
  availableErr : Bool
  progressingDoneErr : Bool
  degradedClearErr : Bool
  depGetErr : Bool
  depCreateErr : Bool
  depUpdateErr : Bool
  svcGetErr : Bool
  svcCreateErr : Bool
  svcUpdateErr : Bool
  depStatusGetErr : Bool
deriving DecidableEq

/-- The fault-free store. -/
def noFaults : Faults :=
  { getWebAppErr := false, removeFinalizerErr := false, addFinalizerErr := false,
    progressingTrueErr := false, degradedDepErr := false, degradedSvcErr := false,
    availableErr := false, progressingDoneErr := false, degradedClearErr := false,
    depGetErr := false, depCreateErr := false, depUpdateErr := false,
    svcGetErr := false, svcCreateErr := false, svcUpdateErr := false,
    depStatusGetErr := false }

/-- One store write issued by the controller, recorded in invocation order. -/
inductive Event
  | updateWebApp
  | statusWrite (condType : String) (status : CondStatus)
  | createDeployment
  | updateDeployment
  | createService
  | updateService
deriving DecidableEq

/-- The pair `(ctrl.Result, error)` returned by `Reconcile`. -/
inductive Outcome
  | ok (requeue : Bool) (requeueAfterSec : Option Nat)
  | fail (msg : String)
deriving DecidableEq

/-- Result of one reconcile invocation: final store, outcome, write trace. -/
structure RecResult where
  store : Store
  outcome : Outcome
  trace : List Event
deriving DecidableEq

/-- The `webappFinalizer` constant of the controller. -/
def webappFinalizer : String := "app.54b3r.io/finalizer"

/-- The `requeueAfter` interval (`time.Minute`), in seconds. -/
def requeueAfter : Nat := 60

/-- Message of an injected transient store failure. -/
def storeErr : String := "store unavailable"

/-- Embedding of `labelsForWebApp`. -/
def labelsForWebApp (name : String) : List (String × String) :=
  [("app.kubernetes.io/name", "webapp"),
   ("app.kubernetes.io/instance", name),
   ("app.kubernetes.io/managed-by", "platform-operator")]

/-- The `desired` Deployment built in `reconcileDeployment`, including the
owner reference set by `SetControllerReference` (modelled as never failing:
the scheme always knows the WebApp type). -/
def desiredDeployment (w : WebApp) : Deployment :=
  let replicas : Int := match w.spec.replicas with
    | some r => r
    | none => 1
  { name := w.name, ns := w.ns, extraMeta := [],
    ownerRef := some { ownerName := w.name, ownerNs := w.ns },
    spec := { replicas := replicas,
              selector := labelsForWebApp w.name,
              templateLabels := labelsForWebApp w.name,
              containers := [{ name := "webapp", image := w.spec.image,
                               ports := [{ containerPort := w.spec.port, protocol := "TCP" }],
                               env := [], resources := "" }],
              strategy := "" },
    status := { availableReplicas := 0 } }

/-- The `desired` Service built in `reconcileService`. -/
def desiredService (w : WebApp) : Service :=
  { name := w.name, ns := w.ns, extraMeta := [],
    ownerRef := some { ownerName := w.name, ownerNs := w.ns },
    spec := { selector := labelsForWebApp w.name,
              ports := [{ port := w.spec.port, targetPort := w.spec.port, protocol := "TCP" }],
              svcType := "ClusterIP", clusterIP := "" } }

/-- The selective update of an existing Deployment (lines 236-239 of the
controller): only replicas, container image and container ports are written.
The Go code indexes `Containers[0]`; the API server guarantees at least one
container, and an empty list is left unchanged here. -/
def updateDeploymentFields (w : WebApp) (existing : Deployment) : Deployment :=
  let desired := desiredDeployment w
  let newContainers :=
    match existing.spec.containers, desired.spec.containers with
    | e0 :: erest, d0 :: _ => { e0 with image := d0.image, ports := d0.ports } :: erest
    | es, _ => es
  let newSpec := { existing.spec with replicas := desired.spec.replicas, containers := newContainers }
  { existing with spec := newSpec }

/-- The selective update of an existing Service (lines 282-284): only the
port list and the selector are written. -/
def updateServiceFields (w : WebApp) (existing : Service) : Service :=
  let desired := desiredService w
  let newSpec := { existing.spec with ports := desired.spec.ports, selector := desired.spec.selector }
  { existing with spec := newSpec }

/-- Embedding of `reconcileDeployment`: get, create when absent, otherwise selectively
update.  A get failure is wrapped as in the source; create/update errors are
returned as-is. -/
def reconcileDeployment (f : Faults) (w : WebApp) (s : Store) :
    Except String (Store × List Event) :=
  if f.depGetErr then
    .error ("getting deployment: " ++ storeErr)
  else
    match s.deployment with
    | none =>
      if f.depCreateErr then .error storeErr
      else .ok ({ s with deployment := some (desiredDeployment w) }, [Event.createDeployment])
    | some existing =>
      if f.depUpdateErr then .error storeErr
      else .ok ({ s with deployment := some (updateDeploymentFields w existing) },
                [Event.updateDeployment])

/-- Embedding of `reconcileService`: get, create when absent, otherwise selectively update. -/
def reconcileService (f : Faults) (w : WebApp) (s : Store) :
    Except String (Store × List Event) :=
  if f.svcGetErr then
    .error ("getting service: " ++ storeErr)
  else
    match s.service with
    | none =>
      if f.svcCreateErr then .error storeErr
      else .ok ({ s with service := some (desiredService w) }, [Event.createService])
    | some existing =>
      if f.svcUpdateErr then .error storeErr
      else .ok ({ s with service := some (updateServiceFields w existing) },
                [Event.updateService])

/-- Embedding of `cleanupChildResources`: a no-op that always succeeds (children are
garbage-collected via owner references). -/
def cleanupChildResources (_w : WebApp) : Except String Unit := .ok ()

/-- A main-resource `Update`: persists everything except status (the status
subresource is written only through `Status().Update`). -/
def writeMain (s : Store) (w : WebApp) : Store :=
  match s.webapp with
  | some stored => { s with webapp := some { w with status := stored.status } }
  | none => s

/-- A `Status().Update`: persists only the status subresource. -/
def writeStatus (s : Store) (w : WebApp) : Store :=
  match s.webapp with
  | some stored => { s with webapp := some { stored with status := w.status } }
  | none => s

/-- Embedding of `setCondition`: stamp the condition with the WebApp's current generation,
merge it via `meta.SetStatusCondition` into the in-memory object, then persist
the status subresource.  `fail` is the injected-failure flag of this
particular `Status().Update` call site (each site has its own flag in
`Faults`). -/
def setCondition (fail : Bool) (w : WebApp) (s : Store)
    (condType : String) (st : CondStatus) (reason message : String) :
    Except String (WebApp × Store) :=
  let newCond : Condition :=
    { condType := condType, status := st, reason := reason, message := message, observedGeneration := w.generation }
  let newStatus := { w.status with conditions := setStatusCondition w.status.conditions newCond }
  let w' := { w with status := newStatus }
  if fail then
    .error ("updating status condition " ++ condType ++ ": " ++ storeErr)
  else
    .ok (w', writeStatus s w')

/-- Embedding of `Reconcile` (lines 83-175), one invocation as a pure function of the
store and the injected faults.  Returns the final store, the
`(ctrl.Result, error)` outcome, and the ordered trace of store writes. -/
def reconcile (f : Faults) (s : Store) : RecResult :=
  -- Fetch the WebApp; NotFound is treated as success with nothing to do.
  if f.getWebAppErr then
    { store := s, outcome := .fail storeErr, trace := [] }
  else
    match s.webapp with
    | none => { store := s, outcome := .ok false none, trace := [] }
    | some webapp =>
      match webapp.deletionTimestamp with
      | some _ =>
        -- Deletion path: cleanup, then remove the finalizer.
        if webappFinalizer ∈ webapp.finalizers then
          match cleanupChildResources webapp with
          | .error e =>
            { store := s, outcome := .fail ("finalizer cleanup: " ++ e), trace := [] }
          | .ok _ =>
            let keptFinalizers := webapp.finalizers.filter (fun x => !(x == webappFinalizer))
            let w' := { webapp with finalizers := keptFinalizers }
            if f.removeFinalizerErr then
              { store := s, outcome := .fail ("removing finalizer: " ++ storeErr), trace := [] }
            else
              { store := writeMain s w', outcome := .ok false none,
                trace := [Event.updateWebApp] }
        else
          { store := s, outcome := .ok false none, trace := [] }
      | none =>
        -- Add the finalizer on first reconcile and requeue immediately.
        if webappFinalizer ∈ webapp.finalizers then
          -- Mark the resource as Progressing while we reconcile.
          match setCondition f.progressingTrueErr webapp s "Progressing" .ctrue
              "Reconciling" "reconciliation in progress" with
          | .error e => { store := s, outcome := .fail e, trace := [] }
          | .ok (w1, s1) =>
            match reconcileDeployment f w1 s1 with
            | .error e =>
              match setCondition f.degradedDepErr w1 s1 "Degraded" .ctrue "DeploymentFailed" e with
              | .ok (_, sd) =>
                { store := sd, outcome := .fail ("reconciling deployment: " ++ e),
                  trace := [Event.statusWrite "Progressing" .ctrue,
                            Event.statusWrite "Degraded" .ctrue] }
              | .error _ =>
                { store := s1, outcome := .fail ("reconciling deployment: " ++ e),
                  trace := [Event.statusWrite "Progressing" .ctrue] }
            | .ok (s2, td) =>
              match reconcileService f w1 s2 with
              | .error e =>
                match setCondition f.degradedSvcErr w1 s2 "Degraded" .ctrue "ServiceFailed" e with
                | .ok (_, sd) =>
                  { store := sd, outcome := .fail ("reconciling service: " ++ e),
                    trace := Event.statusWrite "Progressing" .ctrue ::
                             td ++ [Event.statusWrite "Degraded" .ctrue] }
                | .error _ =>
                  { store := s2, outcome := .fail ("reconciling service: " ++ e),
                    trace := Event.statusWrite "Progressing" .ctrue :: td }
              | .ok (s3, ts) =>
                -- Fetch the Deployment to read available replicas for status.
                if f.depStatusGetErr then
                  { store := s3,
                    outcome := .fail ("fetching deployment for status: " ++ storeErr),
                    trace := Event.statusWrite "Progressing" .ctrue :: td ++ ts }
                else
                  match s3.deployment with
                  | none =>
                    { store := s3,
                      outcome := .fail ("fetching deployment for status: not found"),
                      trace := Event.statusWrite "Progressing" .ctrue :: td ++ ts }
                  | some dep =>
                    let n := dep.status.availableReplicas
                    let st2 := { w1.status with availableReplicas := n }
                    let w2 := { w1 with status := st2 }
                    let availStatus := if n > 0 then CondStatus.ctrue else CondStatus.cfalse
                    let availReason :=
                      if n > 0 then "DeploymentAvailable" else "DeploymentUnavailable"
                    let availMsg :=
                      if n > 0 then toString n ++ " replica(s) available"
                      else "no replicas are available yet"
                    match setCondition f.availableErr w2 s3 "Available" availStatus availReason availMsg with
                    | .error e =>
                      { store := s3, outcome := .fail e,
                        trace := Event.statusWrite "Progressing" .ctrue :: td ++ ts }
                    | .ok (w3, s4) =>
                      match setCondition f.progressingDoneErr w3 s4 "Progressing" .cfalse
                          "ReconcileComplete" "reconciliation complete" with
                      | .error e =>
                        { store := s4, outcome := .fail e,
                          trace := Event.statusWrite "Progressing" .ctrue :: td ++ ts ++
                                   [Event.statusWrite "Available" availStatus] }
                      | .ok (w4, s5) =>
                        match setCondition f.degradedClearErr w4 s5 "Degraded" .cfalse
                            "ReconcileComplete" "no errors" with
                        | .error e =>
                          { store := s5, outcome := .fail e,
                            trace := Event.statusWrite "Progressing" .ctrue :: td ++ ts ++
                                     [Event.statusWrite "Available" availStatus,
                                      Event.statusWrite "Progressing" .cfalse] }
                        | .ok (_, s6) =>
                          { store := s6, outcome := .ok false (some requeueAfter),
                            trace := Event.statusWrite "Progressing" .ctrue :: td ++ ts ++
                                     [Event.statusWrite "Available" availStatus,
                                      Event.statusWrite "Progressing" .cfalse,
                                      Event.statusWrite "Degraded" .cfalse] }
        else
          let w' := { webapp with finalizers := webapp.finalizers ++ [webappFinalizer] }
          if f.addFinalizerErr then
            { store := s, outcome := .fail ("adding finalizer: " ++ storeErr), trace := [] }
          else
            { store := writeMain s w', outcome := .ok true none,
              trace := [Event.updateWebApp] }

/-! ### Derived definitions used by the claim statements -/

/-- The condition of a given kind currently stored for the WebApp. -/
def condOf (s : Store) (k : String) : Option Condition :=
  match s.webapp with
  | some w => findCondition w.status.conditions k
  | none => none

/-- The stored `status.availableReplicas` of the WebApp, when present. -/
def storedAvail (s : Store) : Option Int :=
  match s.webapp with
  | some w => some w.status.availableReplicas
  | none => none

/-- Is this store write a mutation of a child resource? -/
def childMut : Event → Bool
  | .createDeployment => true
  | .updateDeployment => true
  | .createService => true
  | .updateService => true
  | _ => false

/-- Is this store write a status (condition) write on the WebApp? -/
def isStatusWrite : Event → Bool
  | .statusWrite _ _ => true
  | _ => false

/-- The literal reading of the spec's ordering rule: no status write occurs
before all child-resource mutations of the invocation have been issued,
i.e. no status write is followed anywhere later in the trace by a child
mutation. -/
def noStatusBeforeMut : List Event → Bool
  | [] => true
  | e :: rest => (!(isStatusWrite e) || !(rest.any childMut)) && noStatusBeforeMut rest

/-- The ordering rule the code actually obeys: any status write that precedes
a child mutation is the transient Progressing=True marker. -/
def statusBeforeMutOk : List Event → Bool
  | [] => true
  | e :: rest =>
    (!(isStatusWrite e) || !(rest.any childMut) || (e == Event.statusWrite "Progressing" CondStatus.ctrue)) && statusBeforeMutOk rest

/-- Does `reconcileDeployment` fail under these faults and this store? -/
def depSyncFails (f : Faults) (s : Store) : Bool :=
  f.depGetErr || (match s.deployment with
    | some _ => f.depUpdateErr
    | none => f.depCreateErr)

/-- Does `reconcileService` fail under these faults and this store? -/
def svcSyncFails (f : Faults) (s : Store) : Bool :=
  f.svcGetErr || (match s.service with
    | some _ => f.svcUpdateErr
    | none => f.svcCreateErr)

/-- The deployment as it stands after a successful `reconcileDeployment`. -/
def syncedDeployment (w : WebApp) : Option Deployment → Deployment
  | none => desiredDeployment w
  | some d => updateDeploymentFields w d

/-- The service as it stands after a successful `reconcileService`. -/
def syncedService (w : WebApp) : Option Service → Service
  | none => desiredService w
  | some v => updateServiceFields w v

/-- The Progressing=True marker condition written at the start of a pass. -/
def progressingTrueCond (g : Nat) : Condition :=
  { condType := "Progressing", status := .ctrue, reason := "Reconciling", message := "reconciliation in progress", observedGeneration := g }

/-- The Available condition computed by the status projection from the
observed replica count `n`. -/
def availCondition (g : Nat) (n : Int) : Condition :=
  { condType := "Available",
    status := if n > 0 then CondStatus.ctrue else CondStatus.cfalse,
    reason := if n > 0 then "DeploymentAvailable" else "DeploymentUnavailable",
    message := if n > 0 then toString n ++ " replica(s) available" else "no replicas are available yet",
    observedGeneration := g }

/-- The Available condition the status projection computes from the current
store contents (stored WebApp generation, synced Deployment's observed
count); `none` when either object is absent. -/
def projectedAvail (s : Store) : Option Condition :=
  match s.webapp, s.deployment with
  | some w, some d => some (availCondition w.generation d.status.availableReplicas)
  | _, _ => none

/-- The Progressing=False condition written once a pass finishes cleanly. -/
def progressingDoneCond (g : Nat) : Condition :=
  { condType := "Progressing", status := .cfalse, reason := "ReconcileComplete", message := "reconciliation complete", observedGeneration := g }

/-- The Degraded=False condition written once a pass finishes cleanly. -/
def degradedClearCond (g : Nat) : Condition :=
  { condType := "Degraded", status := .cfalse, reason := "ReconcileComplete", message := "no errors", observedGeneration := g }

/-- The condition list after the four condition writes of a clean pass. -/
def finalConditions (cs : List Condition) (g : Nat) (n : Int) : List Condition :=
  setStatusCondition (setStatusCondition (setStatusCondition (setStatusCondition cs (progressingTrueCond g)) (availCondition g n)) (progressingDoneCond g)) (degradedClearCond g)

/-- Closed form of the store after a clean full pass over a WebApp `w` that
already carries the finalizer and is not being deleted. -/
def steadyTarget (s : Store) (w : WebApp) : Store :=
  let d' := syncedDeployment w s.deployment
  let v' := syncedService w s.service
  let n := d'.status.availableReplicas
  let st' : WebAppStatus := { availableReplicas := n, conditions := finalConditions w.status.conditions w.generation n }
  { webapp := some { w with status := st' }, deployment := some d', service := some v' }

/-! ### Concrete sample states -/

/-- A sample desired state. -/
def sampleSpec : WebAppSpec := { image := "nginx:1.25", replicas := some 2, port := 8080 }

/-- A fresh WebApp: no finalizer yet, no deletion requested. -/
def freshWebApp : WebApp :=
  { name := "demo", ns := "default", generation := 1, deletionTimestamp := none,
    finalizers := [], spec := sampleSpec,
    status := { availableReplicas := 0, conditions := [] } }

/-- Store holding only the fresh WebApp. -/
def freshStore : Store := { webapp := some freshWebApp, deployment := none, service := none }

/-- The same WebApp once the finalizer has been registered. -/
def steadyWebApp : WebApp := { freshWebApp with finalizers := [webappFinalizer] }

/-- Steady WebApp with no children yet. -/
def steadyStoreNoChildren : Store :=
  { webapp := some steadyWebApp, deployment := none, service := none }

/-- A Deployment carrying values set by external writers in every
non-authoritative field. -/
def externalDeployment : Deployment :=
  { name := "demo", ns := "default", extraMeta := [("team", "platform")],
    ownerRef := some { ownerName := "demo", ownerNs := "default" },
    spec := { replicas := 5, selector := labelsForWebApp "demo",
              templateLabels := labelsForWebApp "demo",
              containers := [{ name := "webapp", image := "nginx:1.24",
                               ports := [{ containerPort := 80, protocol := "TCP" }],
                               env := [("DEBUG", "1")], resources := "cpu=2" }],
              strategy := "Recreate" },
    status := { availableReplicas := 0 } }

/-- A Service carrying values set by external writers. -/
def externalService : Service :=
  { name := "demo", ns := "default", extraMeta := [("team", "platform")],
    ownerRef := some { ownerName := "demo", ownerNs := "default" },
    spec := { selector := [("old", "selector")],
              ports := [{ port := 80, targetPort := 80, protocol := "TCP" }],
              svcType := "ClusterIP", clusterIP := "10.0.0.7" } }

/-- Steady store with both children present (deployment observes 0 replicas). -/
def steadyStoreWithChildren : Store :=
  { webapp := some steadyWebApp, deployment := some externalDeployment,
    service := some externalService }

/-- The WebApp with deletion requested while the finalizer is present. -/
def deletingWebApp : WebApp := { steadyWebApp with deletionTimestamp := some 100 }

/-- Store for the deletion scenario. -/
def deletingStore : Store :=
  { webapp := some deletingWebApp, deployment := some externalDeployment,
    service := some externalService }

/-- Store after the first reconcile of the fresh WebApp. -/
def passOneStore : Store := (reconcile noFaults freshStore).store

/-- Store after the second reconcile of the fresh WebApp. -/
def passTwoStore : Store := (reconcile noFaults passOneStore).store

/-- The steady WebApp carrying a stale Degraded=True condition left by an
earlier failed pass. -/
def degradedWebApp : WebApp :=
  { steadyWebApp with status := { availableReplicas := 0, conditions := [{ condType := "Degraded", status := CondStatus.ctrue, reason := "DeploymentFailed", message := "boom", observedGeneration := 0 }] } }

/-- Store for the stale-Degraded scenario. -/
def degradedStore : Store :=
  { webapp := some degradedWebApp, deployment := some externalDeployment,
    service := some externalService }

/-- WebApp after one sample `setCondition` write. -/
def sampleCondWebApp : WebApp :=
  { steadyWebApp with status := { steadyWebApp.status with conditions := setStatusCondition steadyWebApp.status.conditions { condType := "Available", status := CondStatus.ctrue, reason := "R", message := "M", observedGeneration := steadyWebApp.generation } } }

/-- Store after that sample `setCondition` write. -/
def sampleCondStore : Store := writeStatus steadyStoreNoChildren sampleCondWebApp

/-- Faults that fail only the status-fetch `Get` of the Deployment. -/
def statusFetchFaults : Faults := { noFaults with depStatusGetErr := true }

/-- Faults that fail only the Deployment create. -/
def depCreateFaults : Faults := { noFaults with depCreateErr := true }

/-- Faults that fail only the Progressing=False completion write. -/
def progressingDoneFaults : Faults := { noFaults with progressingDoneErr := true }

/-! ### Lemmas about the condition list -/

theorem find_set_self (cs : List Condition) (c : Condition) (k : String) (h : c.condType = k) :
    findCondition (setStatusCondition cs c) k = some c := by
  induction cs with
  | nil => simp [setStatusCondition, findCondition, h]
  | cons c' rest ih =>
    by_cases h' : c'.condType = c.condType
    · cases c with
      | mk t st r m g => simp_all [setStatusCondition, findCondition]
    · have hk : ¬ c'.condType = k := by
        intro hck
        exact h' (by rw [hck, h])
      simp [setStatusCondition, findCondition, h', hk, ih]

theorem find_set_ne (cs : List Condition) (c : Condition) (k : String) (h : ¬ c.condType = k) :
    findCondition (setStatusCondition cs c) k = findCondition cs k := by
  have hks : ¬ k = c.condType := fun hkc => h hkc.symm
  induction cs with
  | nil => simp [setStatusCondition, findCondition, h, hks]
  | cons c' rest ih =>
    by_cases h' : c'.condType = c.condType
    · have hk : ¬ c'.condType = k := by
        intro hck
        exact h (by rw [← h', hck])
      simp [setStatusCondition, findCondition, h', hk, h, hks]
    · simp [setStatusCondition, findCondition, h', ih]

theorem set_noop (cs : List Condition) (c : Condition)
    (h : findCondition cs c.condType = some c) : setStatusCondition cs c = cs := by
  induction cs with
  | nil => simp [findCondition] at h
  | cons c' rest ih =>
    by_cases h' : c'.condType = c.condType
    · have hc : c' = c := by
        simpa [findCondition, h'] using h
      subst hc
      simp [setStatusCondition]
    · have hrec : findCondition rest c.condType = some c := by
        simpa [findCondition, h'] using h
      simp [setStatusCondition, h', ih hrec]

theorem set_override (cs : List Condition) (c₁ c₂ : Condition) (h : c₁.condType = c₂.condType) :
    setStatusCondition (setStatusCondition cs c₁) c₂ = setStatusCondition cs c₂ := by
  induction cs with
  | nil => simp [setStatusCondition, h]
  | cons c' rest ih =>
    by_cases h' : c'.condType = c₁.condType
    · have h₂ : c'.condType = c₂.condType := by rw [h', h]
      simp [setStatusCondition, h', h₂, h]
    · have h₂ : ¬ c'.condType = c₂.condType := by
        intro hck
        exact h' (by rw [hck, ← h])
      simp [setStatusCondition, h', h₂, ih]

theorem finalConditions_idem (cs : List Condition) (g : Nat) (n : Int) :
    finalConditions (finalConditions cs g n) g n = finalConditions cs g n := by
  have hfindAv : findCondition (setStatusCondition (finalConditions cs g n) (progressingTrueCond g)) (availCondition g n).condType = some (availCondition g n) := by
    rw [find_set_ne _ _ _ (by simp [progressingTrueCond, availCondition])]
    unfold finalConditions
    rw [find_set_ne _ _ _ (by simp [degradedClearCond, availCondition])]
    rw [find_set_ne _ _ _ (by simp [progressingDoneCond, availCondition])]
    exact find_set_self _ _ _ rfl
  have hfindPr : findCondition (finalConditions cs g n) (progressingDoneCond g).condType = some (progressingDoneCond g) := by
    unfold finalConditions
    rw [find_set_ne _ _ _ (by simp [degradedClearCond, progressingDoneCond])]
    exact find_set_self _ _ _ rfl
  have hfindDg : findCondition (finalConditions cs g n) (degradedClearCond g).condType = some (degradedClearCond g) := by
    unfold finalConditions
    exact find_set_self _ _ _ rfl
  conv_lhs => rw [finalConditions]
  rw [set_noop _ _ hfindAv]
  rw [set_override _ _ _ (show (progressingTrueCond g).condType = (progressingDoneCond g).condType from rfl)]
  rw [set_noop _ _ hfindPr]
  rw [set_noop _ _ hfindDg]

/-! ### The desired child shapes depend only on identity and spec -/

theorem desiredDeployment_congr (w : WebApp) (dt : Option Nat) (fz : List String) (st : WebAppStatus) :
    desiredDeployment { name := w.name, ns := w.ns, generation := w.generation, deletionTimestamp := dt, finalizers := fz, spec := w.spec, status := st } = desiredDeployment w := rfl

theorem desiredService_congr (w : WebApp) (dt : Option Nat) (fz : List String) (st : WebAppStatus) :
    desiredService { name := w.name, ns := w.ns, generation := w.generation, deletionTimestamp := dt, finalizers := fz, spec := w.spec, status := st } = desiredService w := rfl

theorem updateDeploymentFields_congr (w : WebApp) (dt : Option Nat) (fz : List String) (st : WebAppStatus) (d : Deployment) :
    updateDeploymentFields { name := w.name, ns := w.ns, generation := w.generation, deletionTimestamp := dt, finalizers := fz, spec := w.spec, status := st } d = updateDeploymentFields w d := rfl

theorem updateServiceFields_congr (w : WebApp) (dt : Option Nat) (fz : List String) (st : WebAppStatus) (v : Service) :
    updateServiceFields { name := w.name, ns := w.ns, generation := w.generation, deletionTimestamp := dt, finalizers := fz, spec := w.spec, status := st } v = updateServiceFields w v := rfl

/-! ### The clean full pass in closed form -/

theorem reconcile_steady (s : Store) (w : WebApp) (hw : s.webapp = some w)
    (hdel : w.deletionTimestamp = none) (hfin : webappFinalizer ∈ w.finalizers) :
    (reconcile noFaults s).store = steadyTarget s w ∧
    (reconcile noFaults s).outcome = Outcome.ok false (some requeueAfter) := by
  cases hd : s.deployment <;> cases hs : s.service <;>
    simp [reconcile, hw, hdel, hfin, setCondition, noFaults, reconcileDeployment,
      reconcileService, writeStatus, steadyTarget, syncedDeployment, syncedService,
      finalConditions, progressingTrueCond, availCondition, progressingDoneCond,
      degradedClearCond, hd, hs, desiredDeployment_congr, desiredService_congr,
      updateDeploymentFields_congr, updateServiceFields_congr]

/-! ### Idempotence of the sync and of the full pass -/

theorem updateDeploymentFields_desired (w : WebApp) :
    updateDeploymentFields w (desiredDeployment w) = desiredDeployment w := rfl

theorem updateDeploymentFields_idem (w : WebApp) (d : Deployment) :
    updateDeploymentFields w (updateDeploymentFields w d) = updateDeploymentFields w d := by
  cases hc : d.spec.containers with
  | nil => simp [updateDeploymentFields, desiredDeployment, hc]
  | cons c0 rest => simp [updateDeploymentFields, desiredDeployment, hc]

theorem updateServiceFields_desired (w : WebApp) :
    updateServiceFields w (desiredService w) = desiredService w := rfl

theorem updateServiceFields_idem (w : WebApp) (v : Service) :
    updateServiceFields w (updateServiceFields w v) = updateServiceFields w v := rfl

theorem updateDeploymentFields_status (w : WebApp) (d : Deployment) :
    (updateDeploymentFields w d).status = d.status := rfl

theorem steadyTarget_idem (s : Store) (w w1 : WebApp) (h : (steadyTarget s w).webapp = some w1) :
    steadyTarget (steadyTarget s w) w1 = steadyTarget s w := by
  have hw1 : w1 = { w with status := { availableReplicas := (syncedDeployment w s.deployment).status.availableReplicas, conditions := finalConditions w.status.conditions w.generation ((syncedDeployment w s.deployment).status.availableReplicas) } } := by
    simpa [steadyTarget] using h.symm
  subst hw1
  cases hd : s.deployment <;> cases hs : s.service <;>
    simp [steadyTarget, updateDeploymentFields_congr, updateServiceFields_congr,
      updateDeploymentFields_idem, updateServiceFields_idem, finalConditions_idem,
      updateDeploymentFields_desired, updateServiceFields_desired,
      updateDeploymentFields_status, syncedDeployment, syncedService, hd, hs]

theorem not_mem_filter_out (l : List String) :
    webappFinalizer ∉ l.filter (fun x => !(x == webappFinalizer)) := by
  intro hmem
  simp [List.mem_filter] at hmem

/-- C3 (counterexample): for a fresh WebApp the claim fails — the first
invocation only registers the finalizer (no status write, no child
mutation), while the second invocation writes status and creates both
children, so the observed state after the second call differs from the
observed state after the first, and the second call's child mutations are
neither identical to nor absent relative to the first call's. -/
theorem reconcile_not_idempotent_for_fresh_state :
    passTwoStore.webapp.map WebApp.status ≠ passOneStore.webapp.map WebApp.status ∧
    (reconcile noFaults freshStore).trace.any childMut = false ∧
    (reconcile noFaults passOneStore).trace.any childMut = true := by
  refine ⟨by decide, by decide, by decide⟩

/-- C3 (amended): reconcile is idempotent from every state other than the
fresh first-pass state — whenever the WebApp is absent, already carries the
engine's finalizer, or has deletion requested, running reconcile a second
time with no external mutation in between leaves the entire store (observed
state, conditions and both child resources) exactly as the first run left
it; in particular the second call changes no child resource. -/
theorem reconcile_idempotent_after_first_pass (s : Store)
    (h : s.webapp = none ∨ ∃ w, s.webapp = some w ∧ (webappFinalizer ∈ w.finalizers ∨ w.deletionTimestamp ≠ none)) :
    (reconcile noFaults ((reconcile noFaults s).store)).store = (reconcile noFaults s).store := by
  rcases h with hnone | ⟨w, hw, hcase⟩
  · simp [reconcile, hnone, noFaults]
  · rcases hdel : w.deletionTimestamp with _ | t
    · have hfin : webappFinalizer ∈ w.finalizers := by
        rcases hcase with hf | hd
        · exact hf
        · exact absurd hdel hd
      obtain ⟨h1, _⟩ := reconcile_steady s w hw hdel hfin
      rw [h1]
      obtain ⟨h2, _⟩ := reconcile_steady (steadyTarget s w)
        { w with status := { availableReplicas := (syncedDeployment w s.deployment).status.availableReplicas, conditions := finalConditions w.status.conditions w.generation ((syncedDeployment w s.deployment).status.availableReplicas) } }
        rfl hdel hfin
      rw [h2]
      exact steadyTarget_idem s w _ rfl
    · by_cases hfin : webappFinalizer ∈ w.finalizers
      · have hstep : (reconcile noFaults s).store = { s with webapp := some { w with finalizers := w.finalizers.filter (fun x => !(x == webappFinalizer)) } } := by
          simp [reconcile, hw, hdel, hfin, noFaults, cleanupChildResources, writeMain]
        rw [hstep]
        simp [reconcile, hdel, noFaults, not_mem_filter_out, cleanupChildResources]
      · have hstep : (reconcile noFaults s).store = s := by
          simp [reconcile, hw, hdel, hfin, noFaults, cleanupChildResources]
        rw [hstep]
        exact hstep

/-- C3 (witness for the amended theorem): applied to the steady store with
both children present. -/
theorem reconcile_idempotent_after_first_pass_witness :
    (reconcile noFaults ((reconcile noFaults steadyStoreWithChildren).store)).store = (reconcile noFaults steadyStoreWithChildren).store :=
  reconcile_idempotent_after_first_pass steadyStoreWithChildren
    (Or.inr ⟨steadyWebApp, rfl, Or.inl (by decide)⟩)

/-- C1: for a fresh WebApp (finalizer token absent, deletion not requested)
reconcile adds the finalizer token, persists it with a single main-resource
write, returns requesting immediate re-delivery, and creates no child
resource in that pass; hence the finalizer token is present in the store
while the children are exactly as they were (in particular still absent for
a genuinely fresh resource). -/
theorem reconcile_fresh_adds_finalizer_before_children (s : Store) (w : WebApp)
    (hw : s.webapp = some w) (hdel : w.deletionTimestamp = none)
    (hfin : webappFinalizer ∉ w.finalizers) :
    (reconcile noFaults s).outcome = Outcome.ok true none ∧
    (reconcile noFaults s).trace = [Event.updateWebApp] ∧
    (reconcile noFaults s).store.webapp = some { w with finalizers := w.finalizers ++ [webappFinalizer] } ∧
    (reconcile noFaults s).store.deployment = s.deployment ∧
    (reconcile noFaults s).store.service = s.service ∧
    (∀ w', (reconcile noFaults s).store.webapp = some w' → webappFinalizer ∈ w'.finalizers) := by
  have hmain : reconcile noFaults s = { store := { s with webapp := some { w with finalizers := w.finalizers ++ [webappFinalizer] } }, outcome := Outcome.ok true none, trace := [Event.updateWebApp] } := by
    simp [reconcile, hw, hdel, hfin, noFaults, writeMain]
  rw [hmain]
  refine ⟨rfl, rfl, rfl, rfl, rfl, ?_⟩
  rintro w' hw'
  injection hw' with h
  subst h
  simp

/-- C1 (witness): applied to the fresh sample store. -/
theorem reconcile_fresh_adds_finalizer_before_children_witness :
    (reconcile noFaults freshStore).outcome = Outcome.ok true none ∧
    (reconcile noFaults freshStore).store.deployment = freshStore.deployment ∧
    (reconcile noFaults freshStore).store.service = freshStore.service :=
  ⟨(reconcile_fresh_adds_finalizer_before_children freshStore freshWebApp rfl rfl (by decide)).1,
   (reconcile_fresh_adds_finalizer_before_children freshStore freshWebApp rfl rfl (by decide)).2.2.2.1,
   (reconcile_fresh_adds_finalizer_before_children freshStore freshWebApp rfl rfl (by decide)).2.2.2.2.1⟩

/-- C2: when deletion has been requested, reconcile with the finalizer token
present runs the (always succeeding no-op) cleanup, removes the token with a
single main-resource write, and returns success with no re-delivery; with
the token absent it returns immediately with no writes at all. -/
theorem reconcile_deletion_finalizer_protocol (s : Store) (w : WebApp) (t : Nat)
    (hw : s.webapp = some w) (hdel : w.deletionTimestamp = some t) :
    (webappFinalizer ∈ w.finalizers →
      cleanupChildResources w = Except.ok () ∧
      reconcile noFaults s = { store := { s with webapp := some { w with finalizers := w.finalizers.filter (fun x => !(x == webappFinalizer)) } }, outcome := Outcome.ok false none, trace := [Event.updateWebApp] }) ∧
    (webappFinalizer ∉ w.finalizers →
      reconcile noFaults s = { store := s, outcome := Outcome.ok false none, trace := [] }) := by
  constructor
  · intro hfin
    refine ⟨rfl, ?_⟩
    simp [reconcile, hw, hdel, hfin, noFaults, cleanupChildResources, writeMain]
  · intro hfin
    simp [reconcile, hw, hdel, hfin, noFaults]

/-- C2 (witness): applied to the deleting sample store, where the token is
present. -/
theorem reconcile_deletion_finalizer_protocol_witness :
    reconcile noFaults deletingStore = { store := { deletingStore with webapp := some { deletingWebApp with finalizers := deletingWebApp.finalizers.filter (fun x => !(x == webappFinalizer)) } }, outcome := Outcome.ok false none, trace := [Event.updateWebApp] } :=
  ((reconcile_deletion_finalizer_protocol deletingStore deletingWebApp 100 rfl rfl).1 (by decide)).2

/-! ### Conditions after a clean pass -/

theorem find_final_available (cs : List Condition) (g : Nat) (n : Int) :
    findCondition (finalConditions cs g n) "Available" = some (availCondition g n) := by
  unfold finalConditions
  rw [find_set_ne _ _ _ (show ¬("Degraded" : String) = "Available" by decide)]
  rw [find_set_ne _ _ _ (show ¬("Progressing" : String) = "Available" by decide)]
  exact find_set_self _ _ _ rfl

theorem find_final_progressing (cs : List Condition) (g : Nat) (n : Int) :
    findCondition (finalConditions cs g n) "Progressing" = some (progressingDoneCond g) := by
  unfold finalConditions
  rw [find_set_ne _ _ _ (show ¬("Degraded" : String) = "Progressing" by decide)]
  exact find_set_self _ _ _ rfl

theorem find_final_degraded (cs : List Condition) (g : Nat) (n : Int) :
    findCondition (finalConditions cs g n) "Degraded" = some (degradedClearCond g) := by
  unfold finalConditions
  exact find_set_self _ _ _ rfl

/-- C5 (counterexample): on the steady sample store whose Deployment observes
zero available replicas, the Available condition written by the clean pass
has reason "DeploymentUnavailable" and the fixed message "no replicas are
available yet" — not reason "Unavailable", and the message carries no count,
contrary to the claim's decision table. -/
theorem available_reason_is_deployment_unavailable :
    condOf (reconcile noFaults steadyStoreWithChildren).store "Available" = some { condType := "Available", status := CondStatus.cfalse, reason := "DeploymentUnavailable", message := "no replicas are available yet", observedGeneration := 1 } ∧
    ((condOf (reconcile noFaults steadyStoreWithChildren).store "Available").map Condition.reason ≠ some "Unavailable") := by
  refine ⟨by decide, by decide⟩

/-- C5 (amended): on every pass that reaches status projection, the Available
condition is True with reason "DeploymentAvailable" and a message carrying
the observed count exactly when at least one observed replica is available,
and otherwise False with reason "DeploymentUnavailable" and the fixed
message "no replicas are available yet"; on a cleanly finishing pass the
Progressing condition is set to False with reason "ReconcileComplete". -/
theorem status_projection_decision_table (s : Store) (w : WebApp)
    (hw : s.webapp = some w) (hdel : w.deletionTimestamp = none)
    (hfin : webappFinalizer ∈ w.finalizers) :
    condOf (reconcile noFaults s).store "Available" = some (availCondition w.generation (syncedDeployment w s.deployment).status.availableReplicas) ∧
    condOf (reconcile noFaults s).store "Progressing" = some (progressingDoneCond w.generation) ∧
    (reconcile noFaults s).outcome = Outcome.ok false (some requeueAfter) ∧
    (∀ c, condOf (reconcile noFaults s).store "Available" = some c →
      (c.status = CondStatus.ctrue ↔ 0 < (syncedDeployment w s.deployment).status.availableReplicas)) := by
  obtain ⟨h1, h2⟩ := reconcile_steady s w hw hdel hfin
  rw [h1]
  refine ⟨by simp [condOf, steadyTarget, find_final_available],
          by simp [condOf, steadyTarget, find_final_progressing], h2, ?_⟩
  intro c hc
  have hc' : some (availCondition w.generation (syncedDeployment w s.deployment).status.availableReplicas) = some c := by
    rw [← hc]
    simp [condOf, steadyTarget, find_final_available]
  injection hc' with hc''
  subst hc''
  by_cases hn : 0 < (syncedDeployment w s.deployment).status.availableReplicas
  · simp [availCondition, hn]
  · simp [availCondition, hn]

/-- C5 (witness for the amended theorem): applied to the steady sample store
with children, whose Deployment observes zero available replicas. -/
theorem status_projection_decision_table_witness :
    condOf (reconcile noFaults steadyStoreWithChildren).store "Available" = some (availCondition steadyWebApp.generation (syncedDeployment steadyWebApp steadyStoreWithChildren.deployment).status.availableReplicas) ∧
    condOf (reconcile noFaults steadyStoreWithChildren).store "Progressing" = some (progressingDoneCond steadyWebApp.generation) :=
  ⟨(status_projection_decision_table steadyStoreWithChildren steadyWebApp rfl rfl (by decide)).1,
   (status_projection_decision_table steadyStoreWithChildren steadyWebApp rfl rfl (by decide)).2.1⟩

/-- C10: every cleanly finishing pass writes a Degraded condition with state
False, reason "ReconcileComplete" and message "no errors" — so a
Degraded=True condition left by an earlier failed pass is overwritten by the
next successful pass. -/
theorem clean_pass_clears_degraded (s : Store) (w : WebApp)
    (hw : s.webapp = some w) (hdel : w.deletionTimestamp = none)
    (hfin : webappFinalizer ∈ w.finalizers) :
    condOf (reconcile noFaults s).store "Degraded" = some (degradedClearCond w.generation) ∧
    (reconcile noFaults s).outcome = Outcome.ok false (some requeueAfter) := by
  obtain ⟨h1, h2⟩ := reconcile_steady s w hw hdel hfin
  rw [h1]
  exact ⟨by simp [condOf, steadyTarget, find_final_degraded], h2⟩

/-- C10 (witness): applied to a store whose WebApp still carries a stale
Degraded=True condition: the pass replaces it with the cleared condition. -/
theorem clean_pass_clears_degraded_witness :
    condOf (reconcile noFaults degradedStore).store "Degraded" = some (degradedClearCond degradedWebApp.generation) :=
  (clean_pass_clears_degraded degradedStore degradedWebApp rfl rfl (by decide)).1

/-- C6: a sync call on an existing child updates only the fields the engine
is authoritative over — the Deployment's replica count and container image /
container port list, and the Service's port mapping and selector — while
every other field of the stored child (metadata, owner reference, status,
selector/template labels, strategy, remaining containers and the head
container's name, env and resources; for the Service its type and cluster
IP) is returned unchanged; the stored object is mutated in place, never
replaced wholesale. -/
theorem sync_mutates_only_authoritative_fields (w : WebApp) (s : Store)
    (dep : Deployment) (svc : Service)
    (hd : s.deployment = some dep) (hs : s.service = some svc) :
    reconcileDeployment noFaults w s = Except.ok ({ s with deployment := some (updateDeploymentFields w dep) }, [Event.updateDeployment]) ∧
    reconcileService noFaults w s = Except.ok ({ s with service := some (updateServiceFields w svc) }, [Event.updateService]) ∧
    (updateDeploymentFields w dep).name = dep.name ∧
    (updateDeploymentFields w dep).ns = dep.ns ∧
    (updateDeploymentFields w dep).extraMeta = dep.extraMeta ∧
    (updateDeploymentFields w dep).ownerRef = dep.ownerRef ∧
    (updateDeploymentFields w dep).status = dep.status ∧
    (updateDeploymentFields w dep).spec.selector = dep.spec.selector ∧
    (updateDeploymentFields w dep).spec.templateLabels = dep.spec.templateLabels ∧
    (updateDeploymentFields w dep).spec.strategy = dep.spec.strategy ∧
    (updateDeploymentFields w dep).spec.replicas = (desiredDeployment w).spec.replicas ∧
    (∀ c0 rest, dep.spec.containers = c0 :: rest →
      (updateDeploymentFields w dep).spec.containers = { c0 with image := w.spec.image, ports := [{ containerPort := w.spec.port, protocol := "TCP" }] } :: rest) ∧
    (updateServiceFields w svc).name = svc.name ∧
    (updateServiceFields w svc).ns = svc.ns ∧
    (updateServiceFields w svc).extraMeta = svc.extraMeta ∧
    (updateServiceFields w svc).ownerRef = svc.ownerRef ∧
    (updateServiceFields w svc).spec.svcType = svc.spec.svcType ∧
    (updateServiceFields w svc).spec.clusterIP = svc.spec.clusterIP ∧
    (updateServiceFields w svc).spec.ports = [{ port := w.spec.port, targetPort := w.spec.port, protocol := "TCP" }] ∧
    (updateServiceFields w svc).spec.selector = labelsForWebApp w.name := by
  refine ⟨?_, ?_, rfl, rfl, rfl, rfl, rfl, rfl, rfl, rfl, rfl, ?_, rfl, rfl, rfl, rfl, rfl, rfl, rfl, rfl⟩
  · simp [reconcileDeployment, noFaults, hd]
  · simp [reconcileService, noFaults, hs]
  · intro c0 rest hc
    simp [updateDeploymentFields, desiredDeployment, hc]

/-- C6 (witness): applied to the steady store whose children carry
externally-set values in every non-authoritative field. -/
theorem sync_mutates_only_authoritative_fields_witness :
    reconcileDeployment noFaults steadyWebApp steadyStoreWithChildren = Except.ok ({ steadyStoreWithChildren with deployment := some (updateDeploymentFields steadyWebApp externalDeployment) }, [Event.updateDeployment]) ∧
    (updateDeploymentFields steadyWebApp externalDeployment).extraMeta = externalDeployment.extraMeta :=
  ⟨(sync_mutates_only_authoritative_fields steadyWebApp steadyStoreWithChildren externalDeployment externalService rfl rfl).1,
   (sync_mutates_only_authoritative_fields steadyWebApp steadyStoreWithChildren externalDeployment externalService rfl rfl).2.2.2.2.1⟩

/-- C9: every successful `setCondition` write stamps the written condition's
observedGeneration with the WebApp's current generation, and therefore — as
long as the store's generation counter is non-decreasing — the
observedGeneration of the condition of any given kind never decreases across
successive writes of that kind. -/
theorem setCondition_stamps_generation_monotone (fail : Bool) (w : WebApp) (s : Store)
    (k : String) (st : CondStatus) (r m : String) (w' : WebApp) (s' : Store)
    (hok : setCondition fail w s k st r m = Except.ok (w', s')) :
    findCondition w'.status.conditions k = some { condType := k, status := st, reason := r, message := m, observedGeneration := w.generation } ∧
    (∀ old, findCondition w.status.conditions k = some old →
      old.observedGeneration ≤ w.generation →
      ∀ c', findCondition w'.status.conditions k = some c' →
        old.observedGeneration ≤ c'.observedGeneration) := by
  cases fail with
  | true => simp [setCondition] at hok
  | false =>
    simp only [setCondition, Bool.false_eq_true, if_false, Except.ok.injEq, Prod.mk.injEq] at hok
    obtain ⟨hw', _⟩ := hok
    subst hw'
    have hself := find_set_self w.status.conditions { condType := k, status := st, reason := r, message := m, observedGeneration := w.generation } k rfl
    refine ⟨hself, ?_⟩
    intro old hold hle c' hc'
    have hcc : some { condType := k, status := st, reason := r, message := m, observedGeneration := w.generation } = some c' := hself.symm.trans hc'
    injection hcc with he
    rw [← he]
    exact hle

/-- C9 (witness): applied to a concrete `setCondition` call on the steady
sample store. -/
theorem setCondition_stamps_generation_monotone_witness :
    findCondition sampleCondWebApp.status.conditions "Available" = some { condType := "Available", status := CondStatus.ctrue, reason := "R", message := "M", observedGeneration := steadyWebApp.generation } :=
  (setCondition_stamps_generation_monotone false steadyWebApp steadyStoreNoChildren
    "Available" CondStatus.ctrue "R" "M" sampleCondWebApp sampleCondStore rfl).1

/-- C7 (counterexample): on the steady store with no children, reconcile
issues a status write (the Progressing=True condition) and afterwards issues
child mutations (both creations), so it is not the case that no status write
occurs before all child-resource mutations of the invocation. -/
theorem status_written_before_child_mutation :
    noStatusBeforeMut (reconcile noFaults steadyStoreNoChildren).trace = false ∧
    (reconcile noFaults steadyStoreNoChildren).trace.any childMut = true := by
  refine ⟨by decide, by decide⟩

/-- C7 (amended): the only status write that can precede a child-resource
mutation within an invocation is the transient Progressing=True marker
written when the pass starts; every other status write — the Degraded report
and the whole status projection (Available, Progressing=False,
Degraded=False) — is issued only after all child mutations of the
invocation. -/
theorem only_progressing_marker_precedes_child_mutations (f : Faults) (s : Store) :
    statusBeforeMutOk (reconcile f s).trace = true := by
  by_cases hg : f.getWebAppErr
  · simp [reconcile, hg, statusBeforeMutOk]
  · cases hw : s.webapp with
    | none => simp [reconcile, hg, hw, statusBeforeMutOk]
    | some w =>
      cases hdel : w.deletionTimestamp with
      | some t =>
        by_cases hfin : webappFinalizer ∈ w.finalizers <;> by_cases hup : f.removeFinalizerErr <;>
          simp [reconcile, hg, hw, hdel, hfin, hup, cleanupChildResources, statusBeforeMutOk, isStatusWrite, childMut]
      | none =>
        by_cases hfin : webappFinalizer ∈ w.finalizers
        · by_cases hpt : f.progressingTrueErr
          · simp [reconcile, hg, hw, hdel, hfin, hpt, setCondition, statusBeforeMutOk]
          · by_cases hdg : f.depGetErr
            · by_cases hdd : f.degradedDepErr <;>
                simp [reconcile, hg, hw, hdel, hfin, hpt, hdg, hdd, setCondition, reconcileDeployment, writeStatus, statusBeforeMutOk, isStatusWrite, childMut]
            · cases hd : s.deployment with
              | none =>
                by_cases hdc : f.depCreateErr
                · by_cases hdd : f.degradedDepErr <;>
                    simp [reconcile, hg, hw, hdel, hfin, hpt, hdg, hd, hdc, hdd, setCondition, reconcileDeployment, writeStatus, statusBeforeMutOk, isStatusWrite, childMut]
                · by_cases hsg : f.svcGetErr
                  · by_cases hsd : f.degradedSvcErr <;>
                      simp [reconcile, hg, hw, hdel, hfin, hpt, hdg, hd, hdc, hsg, hsd, setCondition, reconcileDeployment, reconcileService, writeStatus, statusBeforeMutOk, isStatusWrite, childMut]
                  · cases hs : s.service with
                    | none =>
                      by_cases hsc : f.svcCreateErr
                      · by_cases hsd : f.degradedSvcErr <;>
                          simp [reconcile, hg, hw, hdel, hfin, hpt, hdg, hd, hdc, hsg, hs, hsc, hsd, setCondition, reconcileDeployment, reconcileService, writeStatus, statusBeforeMutOk, isStatusWrite, childMut]
                      · by_cases hds : f.depStatusGetErr <;> by_cases hav : f.availableErr <;> by_cases hpd : f.progressingDoneErr <;> by_cases hdc2 : f.degradedClearErr <;>
                          simp [reconcile, hg, hw, hdel, hfin, hpt, hdg, hd, hdc, hsg, hs, hsc, hds, hav, hpd, hdc2, setCondition, reconcileDeployment, reconcileService, writeStatus, statusBeforeMutOk, isStatusWrite, childMut]
                    | some v =>
                      by_cases hsu : f.svcUpdateErr
                      · by_cases hsd : f.degradedSvcErr <;>
                          simp [reconcile, hg, hw, hdel, hfin, hpt, hdg, hd, hdc, hsg, hs, hsu, hsd, setCondition, reconcileDeployment, reconcileService, writeStatus, statusBeforeMutOk, isStatusWrite, childMut]
                      · by_cases hds : f.depStatusGetErr <;> by_cases hav : f.availableErr <;> by_cases hpd : f.progressingDoneErr <;> by_cases hdc2 : f.degradedClearErr <;>
                          simp [reconcile, hg, hw, hdel, hfin, hpt, hdg, hd, hdc, hsg, hs, hsu, hds, hav, hpd, hdc2, setCondition, reconcileDeployment, reconcileService, writeStatus, statusBeforeMutOk, isStatusWrite, childMut]
              | some d =>
                by_cases hdu : f.depUpdateErr
                · by_cases hdd : f.degradedDepErr <;>
                    simp [reconcile, hg, hw, hdel, hfin, hpt, hdg, hd, hdu, hdd, setCondition, reconcileDeployment, writeStatus, statusBeforeMutOk, isStatusWrite, childMut]
                · by_cases hsg : f.svcGetErr
                  · by_cases hsd : f.degradedSvcErr <;>
                      simp [reconcile, hg, hw, hdel, hfin, hpt, hdg, hd, hdu, hsg, hsd, setCondition, reconcileDeployment, reconcileService, writeStatus, statusBeforeMutOk, isStatusWrite, childMut]
                  · cases hs : s.service with
                    | none =>
                      by_cases hsc : f.svcCreateErr
                      · by_cases hsd : f.degradedSvcErr <;>
                          simp [reconcile, hg, hw, hdel, hfin, hpt, hdg, hd, hdu, hsg, hs, hsc, hsd, setCondition, reconcileDeployment, reconcileService, writeStatus, statusBeforeMutOk, isStatusWrite, childMut]
                      · by_cases hds : f.depStatusGetErr <;> by_cases hav : f.availableErr <;> by_cases hpd : f.progressingDoneErr <;> by_cases hdc2 : f.degradedClearErr <;>
                          simp [reconcile, hg, hw, hdel, hfin, hpt, hdg, hd, hdu, hsg, hs, hsc, hds, hav, hpd, hdc2, setCondition, reconcileDeployment, reconcileService, writeStatus, statusBeforeMutOk, isStatusWrite, childMut]
                    | some v =>
                      by_cases hsu : f.svcUpdateErr
                      · by_cases hsd : f.degradedSvcErr <;>
                          simp [reconcile, hg, hw, hdel, hfin, hpt, hdg, hd, hdu, hsg, hs, hsu, hsd, setCondition, reconcileDeployment, reconcileService, writeStatus, statusBeforeMutOk, isStatusWrite, childMut]
                      · by_cases hds : f.depStatusGetErr <;> by_cases hav : f.availableErr <;> by_cases hpd : f.progressingDoneErr <;> by_cases hdc2 : f.degradedClearErr <;>
                          simp [reconcile, hg, hw, hdel, hfin, hpt, hdg, hd, hdu, hsg, hs, hsu, hds, hav, hpd, hdc2, setCondition, reconcileDeployment, reconcileService, writeStatus, statusBeforeMutOk, isStatusWrite, childMut]
        · by_cases hup : f.addFinalizerErr <;>
            simp [reconcile, hg, hw, hdel, hfin, hup, statusBeforeMutOk, isStatusWrite, childMut]

/-- C4: whenever the child-resource synchronization step fails (the
Deployment sync, or the Deployment sync succeeds and the Service sync
fails), reconcile sets the Degraded condition to True with the failing
step's reason and the underlying message, returns a failure, and does not
proceed to status projection: the stored AvailableReplicas and the stored
Available condition are unchanged, and the trace contains no status write
other than the Progressing marker and the Degraded report. -/
theorem child_sync_failure_sets_degraded_and_skips_status (f : Faults) (s : Store) (w : WebApp)
    (hw : s.webapp = some w) (hdel : w.deletionTimestamp = none)
    (hfin : webappFinalizer ∈ w.finalizers)
    (hg : f.getWebAppErr = false) (hpt : f.progressingTrueErr = false)
    (hdd : f.degradedDepErr = false) (hsd : f.degradedSvcErr = false)
    (hfail : depSyncFails f s = true ∨ (depSyncFails f s = false ∧ svcSyncFails f s = true)) :
    (∃ e, (reconcile f s).outcome = Outcome.fail e) ∧
    (∃ m, condOf (reconcile f s).store "Degraded" = some { condType := "Degraded", status := CondStatus.ctrue, reason := (if depSyncFails f s then "DeploymentFailed" else "ServiceFailed"), message := m, observedGeneration := w.generation }) ∧
    storedAvail (reconcile f s).store = storedAvail s ∧
    condOf (reconcile f s).store "Available" = condOf s "Available" ∧
    (reconcile f s).trace.any (fun e => isStatusWrite e && !(e == Event.statusWrite "Progressing" CondStatus.ctrue) && !(e == Event.statusWrite "Degraded" CondStatus.ctrue)) = false := by
  rcases hfail with hdf | ⟨hdok, hsf⟩
  · by_cases hdg : f.depGetErr
    · simp [reconcile, condOf, storedAvail, hw, hdel, hfin, hg, hpt, hdd, hsd, hdg, depSyncFails, setCondition, reconcileDeployment, writeStatus, find_set_self, find_set_ne, isStatusWrite]
    · cases hd : s.deployment with
      | none =>
        have hdc : f.depCreateErr = true := by
          simpa [depSyncFails, hdg, hd] using hdf
        simp [reconcile, condOf, storedAvail, hw, hdel, hfin, hg, hpt, hdd, hsd, hdg, hd, hdc, depSyncFails, setCondition, reconcileDeployment, writeStatus, find_set_self, find_set_ne, isStatusWrite]
      | some d =>
        have hdu : f.depUpdateErr = true := by
          simpa [depSyncFails, hdg, hd] using hdf
        simp [reconcile, condOf, storedAvail, hw, hdel, hfin, hg, hpt, hdd, hsd, hdg, hd, hdu, depSyncFails, setCondition, reconcileDeployment, writeStatus, find_set_self, find_set_ne, isStatusWrite]
  · have hdg : f.depGetErr = false := by
      rcases hqq : f.depGetErr
      · rfl
      · rw [depSyncFails, hqq] at hdok
        simp at hdok
    cases hd : s.deployment with
    | none =>
      have hdc : f.depCreateErr = false := by
        simpa [depSyncFails, hdg, hd] using hdok
      by_cases hsg : f.svcGetErr
      · simp [reconcile, condOf, storedAvail, hw, hdel, hfin, hg, hpt, hdd, hsd, hdg, hd, hdc, hsg, depSyncFails, svcSyncFails, setCondition, reconcileDeployment, reconcileService, writeStatus, find_set_self, find_set_ne, isStatusWrite, childMut]
      · cases hs : s.service with
        | none =>
          have hsc : f.svcCreateErr = true := by
            simpa [svcSyncFails, hsg, hs] using hsf
          simp [reconcile, condOf, storedAvail, hw, hdel, hfin, hg, hpt, hdd, hsd, hdg, hd, hdc, hsg, hs, hsc, depSyncFails, svcSyncFails, setCondition, reconcileDeployment, reconcileService, writeStatus, find_set_self, find_set_ne, isStatusWrite, childMut]
        | some v =>
          have hsu : f.svcUpdateErr = true := by
            simpa [svcSyncFails, hsg, hs] using hsf
          simp [reconcile, condOf, storedAvail, hw, hdel, hfin, hg, hpt, hdd, hsd, hdg, hd, hdc, hsg, hs, hsu, depSyncFails, svcSyncFails, setCondition, reconcileDeployment, reconcileService, writeStatus, find_set_self, find_set_ne, isStatusWrite, childMut]
    | some d =>
      have hdu : f.depUpdateErr = false := by
        simpa [depSyncFails, hdg, hd] using hdok
      by_cases hsg : f.svcGetErr
      · simp [reconcile, condOf, storedAvail, hw, hdel, hfin, hg, hpt, hdd, hsd, hdg, hd, hdu, hsg, depSyncFails, svcSyncFails, setCondition, reconcileDeployment, reconcileService, writeStatus, find_set_self, find_set_ne, isStatusWrite, childMut]
      · cases hs : s.service with
        | none =>
          have hsc : f.svcCreateErr = true := by
            simpa [svcSyncFails, hsg, hs] using hsf
          simp [reconcile, condOf, storedAvail, hw, hdel, hfin, hg, hpt, hdd, hsd, hdg, hd, hdu, hsg, hs, hsc, depSyncFails, svcSyncFails, setCondition, reconcileDeployment, reconcileService, writeStatus, find_set_self, find_set_ne, isStatusWrite, childMut]
        | some v =>
          have hsu : f.svcUpdateErr = true := by
            simpa [svcSyncFails, hsg, hs] using hsf
          simp [reconcile, condOf, storedAvail, hw, hdel, hfin, hg, hpt, hdd, hsd, hdg, hd, hdu, hsg, hs, hsu, depSyncFails, svcSyncFails, setCondition, reconcileDeployment, reconcileService, writeStatus, find_set_self, find_set_ne, isStatusWrite, childMut]

/-- C4 (witness): applied to the steady store with no children where the
Deployment create fails. -/
theorem child_sync_failure_sets_degraded_and_skips_status_witness :
    (∃ e, (reconcile depCreateFaults steadyStoreNoChildren).outcome = Outcome.fail e) ∧
    (∃ m, condOf (reconcile depCreateFaults steadyStoreNoChildren).store "Degraded" = some { condType := "Degraded", status := CondStatus.ctrue, reason := (if depSyncFails depCreateFaults steadyStoreNoChildren then "DeploymentFailed" else "ServiceFailed"), message := m, observedGeneration := steadyWebApp.generation }) :=
  ⟨(child_sync_failure_sets_degraded_and_skips_status depCreateFaults steadyStoreNoChildren steadyWebApp rfl rfl (by decide) rfl rfl rfl rfl (Or.inl (by decide))).1,
   (child_sync_failure_sets_degraded_and_skips_status depCreateFaults steadyStoreNoChildren steadyWebApp rfl rfl (by decide) rfl rfl rfl rfl (Or.inl (by decide))).2.1⟩

/-- C7 (witness for the amended theorem): evaluated on the fault-free steady
store with no children. -/
theorem only_progressing_marker_precedes_child_mutations_witness :
    statusBeforeMutOk (reconcile noFaults steadyStoreNoChildren).trace = true :=
  only_progressing_marker_precedes_child_mutations noFaults steadyStoreNoChildren

/-- C8 (counterexample): with only the status-fetch `Get` of the Deployment
failing, reconcile surfaces the failure after the Progressing condition
write has already been made, yet writes no further condition: the final
conditions consist solely of the Progressing=True marker, so a failure
occurring after the first condition write of the pass is surfaced without a
condition update, contrary to the claim. -/
theorem io_failure_after_condition_write_unreported :
    (reconcile statusFetchFaults steadyStoreWithChildren).outcome = Outcome.fail ("fetching deployment for status: " ++ storeErr) ∧
    (reconcile statusFetchFaults steadyStoreWithChildren).trace.any isStatusWrite = true ∧
    (reconcile statusFetchFaults steadyStoreWithChildren).store.webapp.map (fun w => w.status.conditions) = some [progressingTrueCond 1] ∧
    condOf (reconcile statusFetchFaults steadyStoreWithChildren).store "Degraded" = none := by
  refine ⟨by decide, by decide, by decide, by decide⟩

/-- With only the Progressing=False completion write failing, the invocation
returns an error while the freshly projected Available condition has already
been persisted by the immediately preceding write and no Degraded report is
written: a transient status-write failure late in the projection leaves the
earlier projection writes of the same pass in place.  (This interleaving is
representable because every `Status().Update` call site fails
independently.) -/
theorem projection_write_failure_changes_available :
    (reconcile progressingDoneFaults steadyStoreWithChildren).outcome = Outcome.fail ("updating status condition Progressing: " ++ storeErr) ∧
    condOf (reconcile progressingDoneFaults steadyStoreWithChildren).store "Available" = projectedAvail (reconcile progressingDoneFaults steadyStoreWithChildren).store ∧
    condOf (reconcile progressingDoneFaults steadyStoreWithChildren).store "Available" ≠ condOf steadyStoreWithChildren "Available" ∧
    condOf (reconcile progressingDoneFaults steadyStoreWithChildren).store "Degraded" = condOf steadyStoreWithChildren "Degraded" := by
  refine ⟨by decide, by decide, by decide, by decide⟩

/-- C8 (amended): on every invocation that returns an error, the stored
Degraded condition either carries a child-synchronization failure report
(Degraded=True with reason DeploymentFailed or ServiceFailed, written before
returning) or is exactly what it was before the invocation — a transient
store I/O failure (on the initial fetch, a finalizer update, the Deployment
status-fetch, or a condition write itself) is surfaced purely via
re-delivery and never alters the Degraded condition; the stored Available
condition on such a failing invocation is either untouched or the freshly
computed status projection that a later write's failure left in place, never
anything else. -/
theorem errors_reflected_or_degraded_untouched (f : Faults) (s : Store) (e : String)
    (h : (reconcile f s).outcome = Outcome.fail e) :
    (∃ c, condOf (reconcile f s).store "Degraded" = some c ∧ c.status = CondStatus.ctrue ∧ (c.reason = "DeploymentFailed" ∨ c.reason = "ServiceFailed")) ∨
    (condOf (reconcile f s).store "Degraded" = condOf s "Degraded" ∧
      (condOf (reconcile f s).store "Available" = condOf s "Available" ∨
       condOf (reconcile f s).store "Available" = projectedAvail (reconcile f s).store)) := by
  by_cases hg : f.getWebAppErr
  · simp [reconcile, condOf, hg]
  · cases hw : s.webapp with
    | none => simp [reconcile, condOf, hg, hw] at h
    | some w =>
      cases hdel : w.deletionTimestamp with
      | some t =>
        by_cases hfin : webappFinalizer ∈ w.finalizers <;> by_cases hup : f.removeFinalizerErr <;>
          simp [reconcile, condOf, hg, hw, hdel, hfin, hup, cleanupChildResources, writeMain] at h ⊢
      | none =>
        by_cases hfin : webappFinalizer ∈ w.finalizers
        · by_cases hpt : f.progressingTrueErr
          · simp [reconcile, condOf, hg, hw, hdel, hfin, hpt, setCondition]
          · by_cases hdg : f.depGetErr
            · by_cases hdd : f.degradedDepErr <;>
                simp [reconcile, condOf, hg, hw, hdel, hfin, hpt, hdg, hdd, setCondition, reconcileDeployment, writeStatus, find_set_self, find_set_ne]
            · cases hd : s.deployment with
              | none =>
                by_cases hdc : f.depCreateErr
                · by_cases hdd : f.degradedDepErr <;>
                    simp [reconcile, condOf, hg, hw, hdel, hfin, hpt, hdg, hd, hdc, hdd, setCondition, reconcileDeployment, writeStatus, find_set_self, find_set_ne]
                · by_cases hsg : f.svcGetErr
                  · by_cases hsd : f.degradedSvcErr <;>
                      simp [reconcile, condOf, hg, hw, hdel, hfin, hpt, hdg, hd, hdc, hsg, hsd, setCondition, reconcileDeployment, reconcileService, writeStatus, find_set_self, find_set_ne]
                  · cases hs : s.service with
                    | none =>
                      by_cases hsc : f.svcCreateErr
                      · by_cases hsd : f.degradedSvcErr <;>
                          simp [reconcile, condOf, hg, hw, hdel, hfin, hpt, hdg, hd, hdc, hsg, hs, hsc, hsd, setCondition, reconcileDeployment, reconcileService, writeStatus, find_set_self, find_set_ne]
                      · by_cases hds : f.depStatusGetErr <;> by_cases hav : f.availableErr <;> by_cases hpd : f.progressingDoneErr <;> by_cases hdc2 : f.degradedClearErr <;>
                          simp [reconcile, condOf, projectedAvail, availCondition, hg, hw, hdel, hfin, hpt, hdg, hd, hdc, hsg, hs, hsc, hds, hav, hpd, hdc2, setCondition, reconcileDeployment, reconcileService, writeStatus, find_set_self, find_set_ne] at h ⊢
                    | some v =>
                      by_cases hsu : f.svcUpdateErr
                      · by_cases hsd : f.degradedSvcErr <;>
                          simp [reconcile, condOf, hg, hw, hdel, hfin, hpt, hdg, hd, hdc, hsg, hs, hsu, hsd, setCondition, reconcileDeployment, reconcileService, writeStatus, find_set_self, find_set_ne]
                      · by_cases hds : f.depStatusGetErr <;> by_cases hav : f.availableErr <;> by_cases hpd : f.progressingDoneErr <;> by_cases hdc2 : f.degradedClearErr <;>
                          simp [reconcile, condOf, projectedAvail, availCondition, hg, hw, hdel, hfin, hpt, hdg, hd, hdc, hsg, hs, hsu, hds, hav, hpd, hdc2, setCondition, reconcileDeployment, reconcileService, writeStatus, find_set_self, find_set_ne] at h ⊢
              | some d =>
                by_cases hdu : f.depUpdateErr
                · by_cases hdd : f.degradedDepErr <;>
                    simp [reconcile, condOf, hg, hw, hdel, hfin, hpt, hdg, hd, hdu, hdd, setCondition, reconcileDeployment, writeStatus, find_set_self, find_set_ne]
                · by_cases hsg : f.svcGetErr
                  · by_cases hsd : f.degradedSvcErr <;>
                      simp [reconcile, condOf, hg, hw, hdel, hfin, hpt, hdg, hd, hdu, hsg, hsd, setCondition, reconcileDeployment, reconcileService, writeStatus, find_set_self, find_set_ne]
                  · cases hs : s.service with
                    | none =>
                      by_cases hsc : f.svcCreateErr
                      · by_cases hsd : f.degradedSvcErr <;>
                          simp [reconcile, condOf, hg, hw, hdel, hfin, hpt, hdg, hd, hdu, hsg, hs, hsc, hsd, setCondition, reconcileDeployment, reconcileService, writeStatus, find_set_self, find_set_ne]
                      · by_cases hds : f.depStatusGetErr <;> by_cases hav : f.availableErr <;> by_cases hpd : f.progressingDoneErr <;> by_cases hdc2 : f.degradedClearErr <;>
                          simp [reconcile, condOf, projectedAvail, availCondition, hg, hw, hdel, hfin, hpt, hdg, hd, hdu, hsg, hs, hsc, hds, hav, hpd, hdc2, setCondition, reconcileDeployment, reconcileService, writeStatus, find_set_self, find_set_ne] at h ⊢
                    | some v =>
                      by_cases hsu : f.svcUpdateErr
                      · by_cases hsd : f.degradedSvcErr <;>
                          simp [reconcile, condOf, hg, hw, hdel, hfin, hpt, hdg, hd, hdu, hsg, hs, hsu, hsd, setCondition, reconcileDeployment, reconcileService, writeStatus, find_set_self, find_set_ne]
                      · by_cases hds : f.depStatusGetErr <;> by_cases hav : f.availableErr <;> by_cases hpd : f.progressingDoneErr <;> by_cases hdc2 : f.degradedClearErr <;>
                          simp [reconcile, condOf, projectedAvail, availCondition, hg, hw, hdel, hfin, hpt, hdg, hd, hdu, hsg, hs, hsu, hds, hav, hpd, hdc2, setCondition, reconcileDeployment, reconcileService, writeStatus, find_set_self, find_set_ne] at h ⊢
        · by_cases hup : f.addFinalizerErr <;>
            simp [reconcile, condOf, hg, hw, hdel, hfin, hup, writeMain] at h ⊢

/-- C8 (witness for the amended theorem): applied to the failing Deployment
create, which is reflected in a Degraded=True condition. -/
theorem errors_reflected_or_degraded_untouched_witness :
    (∃ c, condOf (reconcile depCreateFaults steadyStoreNoChildren).store "Degraded" = some c ∧ c.status = CondStatus.ctrue ∧ (c.reason = "DeploymentFailed" ∨ c.reason = "ServiceFailed")) ∨
    (condOf (reconcile depCreateFaults steadyStoreNoChildren).store "Degraded" = condOf steadyStoreNoChildren "Degraded" ∧
      (condOf (reconcile depCreateFaults steadyStoreNoChildren).store "Available" = condOf steadyStoreNoChildren "Available" ∨
       condOf (reconcile depCreateFaults steadyStoreNoChildren).store "Available" = projectedAvail (reconcile depCreateFaults steadyStoreNoChildren).store)) :=
  errors_reflected_or_degraded_untouched depCreateFaults steadyStoreNoChildren
    ("reconciling deployment: " ++ storeErr) (by decide)

end PlatformOperator
